import Mathlib

/-!
Verification of the bottle-physics and move-resolution engine of
THE-TORQUE-PARADOX. The repository holds five near-duplicate variants of the
same terminal game; the definitions below embed the shared core logic:

* the simple variant (`src/game.js`): `processMove`, `generateBottle`, the
  level-completion handling of `runGame`;
* the time-weighted variant (`src/unnamed/part_000`): `parseSmartInput`,
  `calculateEnergyLoss`, `processMoveTimed`, `updateEnergyRecovery`.

JavaScript numbers are IEEE-754 binary64. All game quantities are small
integers and integer-valued intermediates stay exact, but the divisions inside
`calculateEnergyLoss` and the products/differences inside `generateBottle`
round to 53 significant bits, which is observable (it shifts a `Math.ceil` or
`Math.floor` at a handful of inputs). We therefore model those values
exactly: every binary64 number reached by the source in its operating range
is an integer multiple of 2^(-80), so doubles are embedded as fixed-point
integers at scale 2^80 (`fpScale`), and `roundDF` performs exact
round-to-nearest-even binary64 rounding of a positive fraction p/q into that
representation. Subnormals and overflow are unreachable in the source's range
and are not modeled.
-/

namespace Torque

/-- Fixed-point scale: a double value v is represented by the integer
v * 2^80. Every binary64 value the source computes lies on this grid
(the smallest magnitudes involved, around 0.05, have exponent ≥ -57). -/
def fpScale : Int := Int.ofNat (2 ^ 80)

/-- Floor of the fraction a/b for b > 0 (Math.floor of an exact value). -/
def floorF (a b : Int) : Int := a / b

/-- Ceiling of the fraction a/b for b > 0 (Math.ceil of an exact value). -/
def ceilF (a b : Int) : Int := -(-a / b)

/-- Base-2 logarithm (floor) of a natural number, by structural recursion on
a fuel argument so that the kernel can evaluate it; `log2Aux fuel n` equals
⌊log2 n⌋ whenever n < 2^fuel and n ≥ 1. -/
def log2Aux : Nat → Nat → Nat
  | 0, _ => 0
  | fuel + 1, n => if 2 ≤ n then log2Aux fuel (n / 2) + 1 else 0

/-- Largest e : ℤ with 2^e ≤ p/q, for p, q > 0 with ratio below 2^128
(value irrelevant otherwise). -/
def floorLog2F (p q : Int) : Int :=
  if q ≤ p then (log2Aux 128 (p / q).toNat : ℤ)
  else
    let d := log2Aux 128 (q / p).toNat
    if q = p * Int.ofNat (2 ^ d) then -(d : ℤ) else -((d : ℤ) + 1)

/-- Round the fraction a/b (b > 0) to the nearest integer, ties to even —
the binary64 significand rounding step applied to a value scaled into
[2^52, 2^53). -/
def rheF (a b : Int) : Int :=
  let fl := a / b
  let r := a - fl * b
  if 2 * r < b then fl
  else if b < 2 * r then fl + 1
  else if fl % 2 = 0 then fl else fl + 1

/-- Binary64 round-to-nearest-even of the positive fraction p/q, returned in
fixed-point representation (an integer multiple of 2^(-80) times `fpScale`).
This is the value a JavaScript arithmetic operation stores when its exact
result is p/q. -/
def roundDF (p q : Int) : Int :=
  let e := floorLog2F p q
  let n :=
    if e ≤ 52 then rheF (p * Int.ofNat (2 ^ (52 - e).toNat)) q
    else rheF p (q * Int.ofNat (2 ^ (e - 52).toNat))
  n * Int.ofNat (2 ^ (e + 28).toNat)

/-- The two twist directions. The source stores them as the strings "CW" and
"ACW" in `bottle.lockedDir` and compares the uppercased command token against
them. -/
inductive Direction
  | CW
  | ACW
deriving DecidableEq

/-- Bottle physics record (`bottle` in every variant of the source). -/
structure Bottle where
  lockedDir : Direction
  requiredForce : Int
  maxCapacity : Int
  currentTightness : Int
  isOpen : Bool
deriving DecidableEq

/-- The tagged result of one resolved move. The source signals these by
setting distinct message/history strings and `state.isGameOver`; each
constructor corresponds to exactly one control path of `processMove`. -/
inductive Outcome
  | InvalidMove
  | InsufficientTime
  | Exhausted
  | Shattered
  | Jammed
  | JamReduced
  | JamCleared
  | TooWeak
  | Opened
deriving DecidableEq

/-- Session state of the simple variant (`state` in `src/game.js`), restricted
to the engine fields; the message/history strings and wall-clock timestamps
are presentation and are not modeled. -/
structure GameState where
  level : Int
  energy : Int
  isGameOver : Bool
  bottle : Bottle
deriving DecidableEq

/-- A tokenized command line of the simple variant: `dir` is `parts[0]`
(already lowercased by the source) and `force` is `parseInt(parts[1])`, with
`none` standing for NaN (missing or unparsable token). -/
structure RawMove where
  dir : String
  force : Option Int
deriving DecidableEq

/-- Direction recognition of the simple variant's validation: the token must
be exactly "cw" or "acw" (src/game.js line 326); `attemptDir` is then its
uppercase form. -/
def parseDir (s : String) : Option Direction :=
  if s = "cw" then some Direction.CW
  else if s = "acw" then some Direction.ACW
  else none

/-- Energy cost of the simple variant: `Math.ceil(force / 2)`
(src/game.js line 332). Division by 2 is exact in binary64 for the integer
forces in range, so the cost is the exact ceiling of force/2. -/
def energyCostSimple (force : Int) : Int := ceilF force 2

/-- The core move resolver of the simple variant (src/game.js lines 320-383),
after tokenization. Returns the new session state paired with the outcome tag
of the control path taken. -/
def processMove (m : RawMove) (s : GameState) : GameState × Outcome :=
  match parseDir m.dir, m.force with
  | some d, some force =>
    if force ≤ 0 then (s, Outcome.InvalidMove)
    else
      let energyCost := energyCostSimple force
      if s.energy < energyCost then
        ({ s with isGameOver := true }, Outcome.Exhausted)
      else
        let s1 := { s with energy := s.energy - energyCost }
        if s1.bottle.maxCapacity < force then
          ({ s1 with isGameOver := true }, Outcome.Shattered)
        else if d = s1.bottle.lockedDir then
          ({ s1 with bottle :=
              { s1.bottle with
                  currentTightness := s1.bottle.currentTightness + force } },
           Outcome.Jammed)
        else if 0 < s1.bottle.currentTightness then
          if s1.bottle.currentTightness ≤ force then
            if s1.bottle.requiredForce ≤ force - s1.bottle.currentTightness then
              ({ s1 with bottle :=
                  { s1.bottle with currentTightness := 0, isOpen := true } },
               Outcome.Opened)
            else
              ({ s1 with bottle := { s1.bottle with currentTightness := 0 } },
               Outcome.JamCleared)
          else
            ({ s1 with bottle :=
                { s1.bottle with
                    currentTightness := s1.bottle.currentTightness - force } },
             Outcome.JamReduced)
        else if s1.bottle.requiredForce ≤ force then
          ({ s1 with bottle := { s1.bottle with isOpen := true } },
           Outcome.Opened)
        else (s1, Outcome.TooWeak)
  | _, _ => (s, Outcome.InvalidMove)

/-- The level-completion handling of the session loop (src/game.js lines
447-455): when the bottle is open the level advances and the bottle is
retired (`requiredForce = 0`, `isOpen = false`), which makes the next loop
iteration generate a fresh bottle before any further move is read. -/
def levelCompletionCheck (s : GameState) : GameState :=
  if s.bottle.isOpen then
    { s with
        level := s.level + 1,
        bottle := { s.bottle with requiredForce := 0, isOpen := false } }
  else s

/-- One full turn of the session loop of `runGame`: resolve the move, then
perform the level-completion handling. -/
def sessionTurn (m : RawMove) (s : GameState) : GameState :=
  levelCompletionCheck (processMove m s).1

/-- Energy replenishment on level start (src/game.js line 424):
`state.energy = Math.min(100, state.energy + 20)`. -/
def replenishEnergy (e : Int) : Int := min 100 (e + 20)

/-- The double value of the literal 0.08 (the per-level margin decrement of
`generateBottle`), in fixed-point representation. -/
def d008 : Int := roundDF 8 100

/-- Bottle generation (src/game.js lines 156-171), with the random draws made
explicit: `dirDraw` is the result of `Math.random() > 0.5` and `offset` is
`Math.floor(Math.random() * 20)`, an integer in [0, 20). The safety margin
`2.0 - (level * 0.08)` and the product `requiredForce * safetyMargin` are
computed in binary64, modeled exactly by `roundDF`. -/
def generateBottle (level : Int) (dirDraw : Bool) (offset : Int) : Bottle :=
  let baseForce := 20 + level * 5
  let requiredForce := baseForce + offset
  let safetyMargin := roundDF (2 * fpScale - roundDF (level * d008) fpScale) fpScale
  { lockedDir := if dirDraw then Direction.CW else Direction.ACW
    requiredForce := requiredForce
    maxCapacity := floorF (roundDF (requiredForce * safetyMargin) fpScale) fpScale
    currentTightness := 0
    isOpen := false }

/-- Session state of the time-weighted variant (`state` in
`src/unnamed/part_000`), restricted to the engine fields. -/
structure TimedState where
  level : Int
  energy : Int
  remainingTime : Int
  lastRecoveryTick : Int
  isGameOver : Bool
  bottle : Bottle
deriving DecidableEq

/-- The token-extraction result feeding `parseSmartInput`
(src/unnamed/part_000 lines 211-269): `direction` is the CW/ACW substring
search (ACW checked first), `time` the number captured before s/S, `force`
the number captured before n/N; `none` marks an absent token. The regex
mechanics themselves are string presentation; the validation chain below is
modeled faithfully. -/
structure SmartInput where
  direction : Option Direction
  time : Option Int
  force : Option Int
deriving DecidableEq

/-- The distinct failure reasons of `parseSmartInput`, in the order the
source checks them. -/
inductive ParseErr
  | noDirection
  | noTime
  | noForce
  | nonPosTime
  | nonPosForce
  | notEnoughTime
deriving DecidableEq

/-- Validation chain of `parseSmartInput` (src/unnamed/part_000 lines
211-269): direction, then time, then force must be present; time and force
must be positive; the requested duration must not exceed the remaining time
budget. -/
def parseSmartInput (inp : SmartInput) (remainingTime : Int) :
    Except ParseErr (Direction × Int × Int) :=
  match inp.direction with
  | none => Except.error ParseErr.noDirection
  | some d =>
    match inp.time with
    | none => Except.error ParseErr.noTime
    | some t =>
      match inp.force with
      | none => Except.error ParseErr.noForce
      | some f =>
        if t ≤ 0 then Except.error ParseErr.nonPosTime
        else if f ≤ 0 then Except.error ParseErr.nonPosForce
        else if remainingTime < t then Except.error ParseErr.notEnoughTime
        else Except.ok (d, t, f)

/-- Energy cost of the time-weighted variant (`calculateEnergyLoss`,
src/unnamed/part_000 lines 279-290), with the binary64 divisions modeled
exactly: `timeScalingFactor = Math.max(0.5, time / 10)`,
`baseEnergyLoss = Math.ceil(force / 2)`,
`scaledEnergyLoss = Math.ceil(baseEnergyLoss / timeScalingFactor)`, plus
`Math.ceil(force / 10)` when force > 50 and time < 5. Fixed-point doubles:
0.5 is `fpScale / 2`; dividing an integer by a fixed-point value v/fpScale
means forming the fraction (integer * fpScale) / v. -/
def calculateEnergyLoss (time force : Int) : Int :=
  let timeScalingFactor := max (fpScale / 2) (roundDF time 10)
  let baseEnergyLoss := ceilF force 2
  let scaledEnergyLoss := ceilF (roundDF (baseEnergyLoss * fpScale) timeScalingFactor) fpScale
  let dangerPenalty := if 50 < force ∧ time < 5 then ceilF (roundDF force 10) fpScale else 0
  scaledEnergyLoss + dangerPenalty

/-- The move resolver of the time-weighted variant (src/unnamed/part_000
lines 545-628): parse/validate, re-check the time budget, charge energy,
deduct the duration from the remaining time, check breakage, then run the
same jam physics as the simple variant. -/
def processMoveTimed (inp : SmartInput) (s : TimedState) : TimedState × Outcome :=
  match parseSmartInput inp s.remainingTime with
  | Except.error e =>
    (s, if e = ParseErr.notEnoughTime then Outcome.InsufficientTime
        else Outcome.InvalidMove)
  | Except.ok (d, timeApplied, force) =>
    if s.remainingTime < timeApplied then (s, Outcome.InsufficientTime)
    else
      let energyCost := calculateEnergyLoss timeApplied force
      if s.energy < energyCost then
        ({ s with isGameOver := true }, Outcome.Exhausted)
      else
        let s1 := { s with
                      energy := s.energy - energyCost,
                      remainingTime := s.remainingTime - timeApplied }
        if s1.bottle.maxCapacity < force then
          ({ s1 with isGameOver := true }, Outcome.Shattered)
        else if d = s1.bottle.lockedDir then
          ({ s1 with bottle :=
              { s1.bottle with
                  currentTightness := s1.bottle.currentTightness + force } },
           Outcome.Jammed)
        else if 0 < s1.bottle.currentTightness then
          if s1.bottle.currentTightness ≤ force then
            if s1.bottle.requiredForce ≤ force - s1.bottle.currentTightness then
              ({ s1 with bottle :=
                  { s1.bottle with currentTightness := 0, isOpen := true } },
               Outcome.Opened)
            else
              ({ s1 with bottle := { s1.bottle with currentTightness := 0 } },
               Outcome.JamCleared)
          else
            ({ s1 with bottle :=
                { s1.bottle with
                    currentTightness := s1.bottle.currentTightness - force } },
             Outcome.JamReduced)
        else if s1.bottle.requiredForce ≤ force then
          ({ s1 with bottle := { s1.bottle with isOpen := true } },
           Outcome.Opened)
        else (s1, Outcome.TooWeak)

/-- Passive energy recovery of the time-weighted variant
(`updateEnergyRecovery`, src/unnamed/part_000 lines 296-308): on the first
tick only the recovery clock is armed; afterwards each elapsed second grants
+1 energy capped at 100. -/
def updateEnergyRecovery (currentTime : Int) (s : TimedState) : TimedState :=
  if s.lastRecoveryTick = 0 then { s with lastRecoveryTick := currentTime }
  else if 1 ≤ currentTime - s.lastRecoveryTick then
    { s with
        energy := min 100 (s.energy + 1),
        lastRecoveryTick := currentTime }
  else s

/-- The energy-cost formula exactly as the specification words it (spec
section 4.2 step 1, time-weighted model), in exact rational arithmetic:
`timeScaling = max(0.5, duration/10)`, `base = ceil(force/2)`,
`energyCost = ceil(base / timeScaling)` plus a surcharge `ceil(force/10)`
when force > 50 and duration < 5. `ceil(base / max(1/2, t/10))` equals
`ceil(2*base)` when t ≤ 5 and `ceil(10*base / t)` otherwise. -/
def energyLossSpec (time force : Int) : Int :=
  let base := ceilF force 2
  let scaled := if time ≤ 5 then 2 * base else ceilF (10 * base) time
  let danger := if 50 < force ∧ time < 5 then ceilF force 10 else 0
  scaled + danger

/-! ## Helper lemmas -/

/-- The exact ceiling of a fraction with nonnegative parts is nonnegative. -/
theorem ceilF_nonneg {a b : Int} (ha : 0 ≤ a) (hb : 0 ≤ b) : 0 ≤ ceilF a b := by
  unfold ceilF
  rcases eq_or_lt_of_le hb with hb0 | hbpos
  · simp [← hb0]
  · have h1 : -a / b ≤ 0 / b := Int.ediv_le_ediv hbpos (by omega)
    simpa using h1

/-- Round-to-nearest of a fraction with nonnegative parts is nonnegative. -/
theorem rheF_nonneg {a b : Int} (ha : 0 ≤ a) (hb : 0 ≤ b) : 0 ≤ rheF a b := by
  unfold rheF
  have hfl : 0 ≤ a / b := Int.ediv_nonneg ha hb
  dsimp only
  split_ifs <;> omega

/-- Binary64 rounding of a fraction with nonnegative parts is nonnegative. -/
theorem roundDF_nonneg {p q : Int} (hp : 0 ≤ p) (hq : 0 ≤ q) : 0 ≤ roundDF p q := by
  unfold roundDF
  dsimp only
  have h2 : ∀ k : Nat, (0 : Int) ≤ Int.ofNat (2 ^ k) := fun k => Int.ofNat_nonneg _
  split_ifs with h
  · exact mul_nonneg (rheF_nonneg (mul_nonneg hp (h2 _)) hq) (h2 _)
  · exact mul_nonneg (rheF_nonneg hp (mul_nonneg hq (h2 _))) (h2 _)

/-- The time-weighted energy cost is never negative (for a positive force,
as guaranteed by `parseSmartInput`). -/
theorem calculateEnergyLoss_nonneg {t f : Int} (hf : 0 < f) :
    0 ≤ calculateEnergyLoss t f := by
  unfold calculateEnergyLoss
  dsimp only
  have hscale : (0 : Int) ≤ fpScale := Int.ofNat_nonneg _
  have hbase : 0 ≤ ceilF f 2 := ceilF_nonneg (by omega) (by omega)
  have hts : (0 : Int) ≤ max (fpScale / 2) (roundDF t 10) :=
    le_max_of_le_left (Int.ediv_nonneg hscale (by omega))
  have hsc : 0 ≤ ceilF (roundDF (ceilF f 2 * fpScale) (max (fpScale / 2) (roundDF t 10))) fpScale :=
    ceilF_nonneg (roundDF_nonneg (mul_nonneg hbase hscale) hts) hscale
  split_ifs with hdanger
  · have : 0 ≤ ceilF (roundDF f 10) fpScale :=
      ceilF_nonneg (roundDF_nonneg (by omega) (by omega)) hscale
    omega
  · omega

/-- A successful `parseSmartInput` guarantees a positive duration and force,
with the duration within the remaining time budget. -/
theorem parseSmartInput_ok_bounds {inp : SmartInput} {r : Int} {d : Direction}
    {t f : Int} (h : parseSmartInput inp r = Except.ok (d, t, f)) :
    0 < t ∧ 0 < f ∧ t ≤ r := by
  unfold parseSmartInput at h
  rcases hd : inp.direction with _ | d0 <;> rw [hd] at h
  · exact absurd h (by simp)
  rcases ht : inp.time with _ | t0 <;> rw [ht] at h
  · exact absurd h (by simp)
  rcases hf : inp.force with _ | f0 <;> rw [hf] at h
  · exact absurd h (by simp)
  dsimp only at h
  split_ifs at h
  all_goals simp only [Except.ok.injEq, Prod.mk.injEq, reduceCtorEq] at h
  obtain ⟨-, rfl, rfl⟩ := h
  omega

/-! ## Claims -/

/-- C9: in the simple model, on the bottle with lockedDirection CW,
requiredForce 30, maxCapacity 50, currentTightness 0 and session energy 100,
the move `acw 35` costs ceil(35/2) = 18 energy, leaves energy 82, passes the
breakage check, resolves as a correct-direction unjammed attempt with
35 ≥ 30, and ends with isOpen = true and outcome Opened. -/
theorem c9_simple_scenario :
    energyCostSimple 35 = 18 ∧
    processMove ⟨"acw", some 35⟩
        ⟨1, 100, false, ⟨Direction.CW, 30, 50, 0, false⟩⟩ =
      (⟨1, 82, false, ⟨Direction.CW, 30, 50, 0, true⟩⟩, Outcome.Opened) := by
  decide

/-- C10 counterexample: `processMove` does not consult `isOpen`, so an open
bottle passed directly to the resolver is not left unchanged: a
wrong-direction move raises its tightness from 0 to 10 (outcome Jammed), and
an over-capacity move shatters it, terminating the session. -/
theorem c10_counterexample :
    (processMove ⟨"cw", some 10⟩
        ⟨1, 100, false, ⟨Direction.CW, 30, 50, 0, true⟩⟩).1.bottle.currentTightness = 10 ∧
    (processMove ⟨"cw", some 10⟩
        ⟨1, 100, false, ⟨Direction.CW, 30, 50, 0, true⟩⟩).2 = Outcome.Jammed ∧
    (processMove ⟨"cw", some 60⟩
        ⟨1, 100, false, ⟨Direction.CW, 30, 50, 0, true⟩⟩).2 = Outcome.Shattered ∧
    (processMove ⟨"cw", some 60⟩
        ⟨1, 100, false, ⟨Direction.CW, 30, 50, 0, true⟩⟩).1.isGameOver = true := by
  decide

/-- C10 (amended): the open-bottle guarantee is enforced by the session
controller, not the resolver: after any full session turn (move resolution
followed by level-completion handling) the live bottle is closed, so the
session loop never hands an open bottle to `processMove`. -/
theorem c10_session_bottle_closed_after_turn (m : RawMove) (s : GameState) :
    (sessionTurn m s).bottle.isOpen = false := by
  unfold sessionTurn levelCompletionCheck
  by_cases h : (processMove m s).1.bottle.isOpen <;> simp [h]

/-- C4: for every level 1..10 and every random offset in [0, 20), the
generated bottle satisfies maxCapacity ≥ requiredForce, where
requiredForce = (20 + 5*level) + offset and maxCapacity is the binary64
floor of requiredForce * (2.0 - 0.08*level). -/
theorem c4_capacity_dominates_required (level offset : Int) (dirDraw : Bool)
    (h1 : 1 ≤ level) (h2 : level ≤ 10) (h3 : 0 ≤ offset) (h4 : offset < 20) :
    (generateBottle level dirDraw offset).requiredForce ≤
      (generateBottle level dirDraw offset).maxCapacity := by
  have key : ∀ l : Nat, l < 10 → ∀ o : Nat, o < 20 → ∀ dd : Bool,
      (generateBottle ((l : Int) + 1) dd (o : Int)).requiredForce ≤
        (generateBottle ((l : Int) + 1) dd (o : Int)).maxCapacity := by decide
  have hl : ((level - 1).toNat : Int) + 1 = level := by omega
  have ho : ((offset.toNat : Int)) = offset := by omega
  have hmain := key (level - 1).toNat (by omega) offset.toNat (by omega) dirDraw
  rw [hl, ho] at hmain
  exact hmain

/-- Witness for C4 at level 3, offset 7. -/
theorem c4_witness :
    (1 : Int) ≤ 3 ∧ (3 : Int) ≤ 10 ∧ (0 : Int) ≤ 7 ∧ (7 : Int) < 20 ∧
    (generateBottle 3 true 7).requiredForce ≤ (generateBottle 3 true 7).maxCapacity :=
  ⟨by decide, by decide, by decide, by decide,
   c4_capacity_dominates_required 3 7 true (by decide) (by decide) (by decide)
     (by decide)⟩

/-- Reduction of `processMove` on a validated move: with a recognized
direction and positive force, the resolver is the energy / breakage /
direction decision tree over the current state. -/
theorem processMove_valid (d : Direction) (f : Int) (m : RawMove)
    (s : GameState) (hd : parseDir m.dir = some d) (hf : m.force = some f)
    (hfpos : 0 < f) :
    processMove m s =
      if s.energy < energyCostSimple f then
        ({ s with isGameOver := true }, Outcome.Exhausted)
      else if s.bottle.maxCapacity < f then
        ({ s with energy := s.energy - energyCostSimple f,
                  isGameOver := true }, Outcome.Shattered)
      else if d = s.bottle.lockedDir then
        ({ s with energy := s.energy - energyCostSimple f,
                  bottle := { s.bottle with
                      currentTightness := s.bottle.currentTightness + f } },
         Outcome.Jammed)
      else if 0 < s.bottle.currentTightness then
        if s.bottle.currentTightness ≤ f then
          if s.bottle.requiredForce ≤ f - s.bottle.currentTightness then
            ({ s with energy := s.energy - energyCostSimple f,
                      bottle := { s.bottle with
                          currentTightness := 0, isOpen := true } },
             Outcome.Opened)
          else
            ({ s with energy := s.energy - energyCostSimple f,
                      bottle := { s.bottle with currentTightness := 0 } },
             Outcome.JamCleared)
        else
          ({ s with energy := s.energy - energyCostSimple f,
                    bottle := { s.bottle with
                        currentTightness := s.bottle.currentTightness - f } },
           Outcome.JamReduced)
      else if s.bottle.requiredForce ≤ f then
        ({ s with energy := s.energy - energyCostSimple f,
                  bottle := { s.bottle with isOpen := true } },
         Outcome.Opened)
      else ({ s with energy := s.energy - energyCostSimple f },
            Outcome.TooWeak) := by
  simp only [processMove, hd, hf]
  rw [if_neg (by omega : ¬ f ≤ 0)]

/-- Reduction of `processMoveTimed` on a successfully parsed move: the
resolver is the energy / time / breakage / direction decision tree over the
current state. -/
theorem processMoveTimed_valid (d : Direction) (t f : Int) (inp : SmartInput)
    (s : TimedState)
    (hp : parseSmartInput inp s.remainingTime = Except.ok (d, t, f)) :
    processMoveTimed inp s =
      if s.energy < calculateEnergyLoss t f then
        ({ s with isGameOver := true }, Outcome.Exhausted)
      else if s.bottle.maxCapacity < f then
        ({ s with energy := s.energy - calculateEnergyLoss t f,
                  remainingTime := s.remainingTime - t,
                  isGameOver := true }, Outcome.Shattered)
      else if d = s.bottle.lockedDir then
        ({ s with energy := s.energy - calculateEnergyLoss t f,
                  remainingTime := s.remainingTime - t,
                  bottle := { s.bottle with
                      currentTightness := s.bottle.currentTightness + f } },
         Outcome.Jammed)
      else if 0 < s.bottle.currentTightness then
        if s.bottle.currentTightness ≤ f then
          if s.bottle.requiredForce ≤ f - s.bottle.currentTightness then
            ({ s with energy := s.energy - calculateEnergyLoss t f,
                      remainingTime := s.remainingTime - t,
                      bottle := { s.bottle with
                          currentTightness := 0, isOpen := true } },
             Outcome.Opened)
          else
            ({ s with energy := s.energy - calculateEnergyLoss t f,
                      remainingTime := s.remainingTime - t,
                      bottle := { s.bottle with currentTightness := 0 } },
             Outcome.JamCleared)
        else
          ({ s with energy := s.energy - calculateEnergyLoss t f,
                    remainingTime := s.remainingTime - t,
                    bottle := { s.bottle with
                        currentTightness := s.bottle.currentTightness - f } },
           Outcome.JamReduced)
      else if s.bottle.requiredForce ≤ f then
        ({ s with energy := s.energy - calculateEnergyLoss t f,
                  remainingTime := s.remainingTime - t,
                  bottle := { s.bottle with isOpen := true } },
         Outcome.Opened)
      else ({ s with energy := s.energy - calculateEnergyLoss t f,
                     remainingTime := s.remainingTime - t },
            Outcome.TooWeak) := by
  obtain ⟨-, -, hle⟩ := parseSmartInput_ok_bounds hp
  simp only [processMoveTimed, hp]
  rw [if_neg (not_lt.mpr hle)]

/-- C1: for a bottle with positive tightness T and a sufficient-energy,
within-capacity, correct-direction move of force f: if f ≥ T the tightness
drops to 0 and the bottle opens (isOpen, outcome Opened) exactly when the
remainder f - T reaches requiredForce, the outcome being JamCleared with the
excess discarded otherwise; if f < T the tightness becomes exactly T - f with
outcome JamReduced and the bottle stays closed. -/
theorem c1_correct_direction_jam_resolution (m : RawMove) (s : GameState)
    (d : Direction) (f : Int)
    (hd : parseDir m.dir = some d) (hf : m.force = some f) (hfpos : 0 < f)
    (hdir : d ≠ s.bottle.lockedDir)
    (hT : 0 < s.bottle.currentTightness)
    (hen : energyCostSimple f ≤ s.energy)
    (hcap : f ≤ s.bottle.maxCapacity)
    (hopen : s.bottle.isOpen = false) :
    (s.bottle.currentTightness ≤ f →
      (processMove m s).1.bottle.currentTightness = 0 ∧
      (((processMove m s).1.bottle.isOpen = true ∧
          (processMove m s).2 = Outcome.Opened) ↔
        s.bottle.requiredForce ≤ f - s.bottle.currentTightness) ∧
      (f - s.bottle.currentTightness < s.bottle.requiredForce →
        (processMove m s).2 = Outcome.JamCleared ∧
        (processMove m s).1.bottle.isOpen = false)) ∧
    (f < s.bottle.currentTightness →
      (processMove m s).1.bottle.currentTightness =
        s.bottle.currentTightness - f ∧
      (processMove m s).2 = Outcome.JamReduced ∧
      (processMove m s).1.bottle.isOpen = false) := by
  rw [processMove_valid d f m s hd hf hfpos,
    if_neg (not_lt.mpr hen), if_neg (not_lt.mpr hcap), if_neg hdir,
    if_pos hT]
  constructor
  · intro hle
    rw [if_pos hle]
    by_cases hreq : s.bottle.requiredForce ≤ f - s.bottle.currentTightness
    · rw [if_pos hreq]
      exact ⟨rfl, ⟨fun _ => hreq, fun _ => ⟨rfl, rfl⟩⟩,
        fun hlt => absurd hreq (by omega)⟩
    · rw [if_neg hreq]
      exact ⟨rfl, ⟨fun h => absurd h.2 (by simp), fun h => absurd h hreq⟩,
        fun _ => ⟨rfl, hopen⟩⟩
  · intro hlt
    rw [if_neg (by omega : ¬ s.bottle.currentTightness ≤ f)]
    exact ⟨rfl, rfl, hopen⟩

/-- Witness for C1 at the boundary instance named by the claim:
currentTightness 10, requiredForce 30, correct-direction force 40 gives
tightness 0, isOpen true, outcome Opened. -/
theorem c1_witness :
    (10 : Int) ≤ 40 ∧
    (processMove ⟨"acw", some 40⟩
        ⟨1, 100, false, ⟨Direction.CW, 30, 50, 10, false⟩⟩).1.bottle.currentTightness = 0 ∧
    ((processMove ⟨"acw", some 40⟩
        ⟨1, 100, false, ⟨Direction.CW, 30, 50, 10, false⟩⟩).1.bottle.isOpen = true ∧
      (processMove ⟨"acw", some 40⟩
        ⟨1, 100, false, ⟨Direction.CW, 30, 50, 10, false⟩⟩).2 = Outcome.Opened) :=
  have hmain := c1_correct_direction_jam_resolution ⟨"acw", some 40⟩
    ⟨1, 100, false, ⟨Direction.CW, 30, 50, 10, false⟩⟩ Direction.ACW 40
    (by decide) (by decide) (by decide) (by decide) (by decide) (by decide)
    (by decide) (by decide)
  ⟨by decide, (hmain.1 (by decide)).1,
    ((hmain.1 (by decide)).2.1).mpr (by decide)⟩

/-- C2: a move whose energy cost exceeds the current energy resolves as
Exhausted with the session terminated and no other state change — the
breakage check and direction logic are never reached — in both the simple
and the time-weighted variant. -/
theorem c2_exhaustion_short_circuits (m : RawMove) (s : GameState)
    (d : Direction) (f : Int) (inp : SmartInput) (ts : TimedState)
    (d2 : Direction) (t2 f2 : Int)
    (hd : parseDir m.dir = some d) (hf : m.force = some f) (hfpos : 0 < f)
    (hen : s.energy < energyCostSimple f)
    (hp : parseSmartInput inp ts.remainingTime = Except.ok (d2, t2, f2))
    (hen2 : ts.energy < calculateEnergyLoss t2 f2) :
    processMove m s = ({ s with isGameOver := true }, Outcome.Exhausted) ∧
    processMoveTimed inp ts =
      ({ ts with isGameOver := true }, Outcome.Exhausted) := by
  constructor
  · rw [processMove_valid d f m s hd hf hfpos, if_pos hen]
  · rw [processMoveTimed_valid d2 t2 f2 inp ts hp, if_pos hen2]

/-- Witness for C2: low-energy sessions facing a costly move in each
variant. -/
theorem c2_witness :
    processMove ⟨"cw", some 30⟩
        ⟨1, 5, false, ⟨Direction.CW, 30, 80, 0, false⟩⟩ =
      (⟨1, 5, true, ⟨Direction.CW, 30, 80, 0, false⟩⟩, Outcome.Exhausted) ∧
    processMoveTimed ⟨some Direction.CW, some 2, some 30⟩
        ⟨1, 5, 300, 0, false, ⟨Direction.CW, 30, 80, 0, false⟩⟩ =
      (⟨1, 5, 300, 0, true, ⟨Direction.CW, 30, 80, 0, false⟩⟩,
       Outcome.Exhausted) :=
  c2_exhaustion_short_circuits ⟨"cw", some 30⟩
    ⟨1, 5, false, ⟨Direction.CW, 30, 80, 0, false⟩⟩ Direction.CW 30
    ⟨some Direction.CW, some 2, some 30⟩
    ⟨1, 5, 300, 0, false, ⟨Direction.CW, 30, 80, 0, false⟩⟩
    Direction.CW 2 30 (by decide) (by decide) (by decide) (by decide)
    rfl (by decide)

/-- C3: with sufficient energy, an over-capacity force shatters the bottle
and terminates the session regardless of direction, with the energy cost
already deducted (and, in the time-weighted variant, the duration already
deducted from the remaining time); the bottle itself is unchanged. -/
theorem c3_overcapacity_shatters (m : RawMove) (s : GameState)
    (d : Direction) (f : Int) (inp : SmartInput) (ts : TimedState)
    (d2 : Direction) (t2 f2 : Int)
    (hd : parseDir m.dir = some d) (hf : m.force = some f) (hfpos : 0 < f)
    (hen : energyCostSimple f ≤ s.energy) (hcap : s.bottle.maxCapacity < f)
    (hp : parseSmartInput inp ts.remainingTime = Except.ok (d2, t2, f2))
    (hen2 : calculateEnergyLoss t2 f2 ≤ ts.energy)
    (hcap2 : ts.bottle.maxCapacity < f2) :
    processMove m s =
      ({ s with energy := s.energy - energyCostSimple f, isGameOver := true },
       Outcome.Shattered) ∧
    processMoveTimed inp ts =
      ({ ts with
          energy := ts.energy - calculateEnergyLoss t2 f2,
          remainingTime := ts.remainingTime - t2,
          isGameOver := true },
       Outcome.Shattered) := by
  constructor
  · rw [processMove_valid d f m s hd hf hfpos, if_neg (not_lt.mpr hen),
      if_pos hcap]
  · rw [processMoveTimed_valid d2 t2 f2 inp ts hp, if_neg (not_lt.mpr hen2),
      if_pos hcap2]

/-- Witness for C3: correct-direction overshoots in each variant. -/
theorem c3_witness :
    processMove ⟨"acw", some 60⟩
        ⟨1, 100, false, ⟨Direction.CW, 30, 50, 0, false⟩⟩ =
      (⟨1, 70, true, ⟨Direction.CW, 30, 50, 0, false⟩⟩, Outcome.Shattered) ∧
    processMoveTimed ⟨some Direction.ACW, some 10, some 60⟩
        ⟨1, 100, 300, 0, false, ⟨Direction.CW, 30, 50, 0, false⟩⟩ =
      (⟨1, 70, 290, 0, true, ⟨Direction.CW, 30, 50, 0, false⟩⟩,
       Outcome.Shattered) :=
  c3_overcapacity_shatters ⟨"acw", some 60⟩
    ⟨1, 100, false, ⟨Direction.CW, 30, 50, 0, false⟩⟩ Direction.ACW 60
    ⟨some Direction.ACW, some 10, some 60⟩
    ⟨1, 100, 300, 0, false, ⟨Direction.CW, 30, 50, 0, false⟩⟩
    Direction.ACW 10 60 (by decide) (by decide) (by decide) (by decide)
    (by decide) rfl (by decide) (by decide)

/-- C6: a sufficient-energy, within-capacity move in the locked direction
adds exactly its force to the tightness with outcome Jammed, leaves the
bottle closed and the session running; and the accumulated tightness is
unbounded (for every bound there is a state and move whose jam exceeds
it). -/
theorem c6_wrong_direction_jams (m : RawMove) (s : GameState)
    (d : Direction) (f : Int)
    (hd : parseDir m.dir = some d) (hf : m.force = some f) (hfpos : 0 < f)
    (hdir : d = s.bottle.lockedDir)
    (hen : energyCostSimple f ≤ s.energy)
    (hcap : f ≤ s.bottle.maxCapacity)
    (hopen : s.bottle.isOpen = false) (hgo : s.isGameOver = false) :
    processMove m s =
      ({ s with
          energy := s.energy - energyCostSimple f,
          bottle :=
            { s.bottle with
                currentTightness := s.bottle.currentTightness + f } },
       Outcome.Jammed) ∧
    (processMove m s).1.bottle.isOpen = false ∧
    (processMove m s).1.isGameOver = false ∧
    (∀ B : Int, ∃ (m2 : RawMove) (s2 : GameState),
      (processMove m2 s2).2 = Outcome.Jammed ∧
      B < (processMove m2 s2).1.bottle.currentTightness) := by
  have hred : processMove m s =
      ({ s with
          energy := s.energy - energyCostSimple f,
          bottle :=
            { s.bottle with
                currentTightness := s.bottle.currentTightness + f } },
       Outcome.Jammed) := by
    rw [processMove_valid d f m s hd hf hfpos, if_neg (not_lt.mpr hen),
      if_neg (not_lt.mpr hcap), if_pos hdir]
  refine ⟨hred, by rw [hred]; exact hopen, by rw [hred]; exact hgo, fun B => ?_⟩
  refine ⟨⟨"cw", some 1⟩, ⟨1, 100, false, ⟨Direction.CW, 1, 5, B, false⟩⟩, ?_, ?_⟩
  all_goals
    rw [processMove_valid Direction.CW 1 ⟨"cw", some 1⟩
        ⟨1, 100, false, ⟨Direction.CW, 1, 5, B, false⟩⟩ (by decide) (by decide)
        (by decide),
      show energyCostSimple 1 = 1 from by decide]
    norm_num
    try omega

/-- Witness for C6: the wrong-direction scenario named by the claim, `cw 20`
against a CW-locked fresh bottle. -/
theorem c6_witness :
    processMove ⟨"cw", some 20⟩
        ⟨1, 100, false, ⟨Direction.CW, 30, 50, 0, false⟩⟩ =
      (⟨1, 90, false, ⟨Direction.CW, 30, 50, 20, false⟩⟩, Outcome.Jammed) ∧
    (processMove ⟨"cw", some 20⟩
        ⟨1, 100, false, ⟨Direction.CW, 30, 50, 0, false⟩⟩).1.bottle.isOpen = false :=
  have hmain := c6_wrong_direction_jams ⟨"cw", some 20⟩
    ⟨1, 100, false, ⟨Direction.CW, 30, 50, 0, false⟩⟩ Direction.CW 20
    (by decide) (by decide) (by decide) (by decide) (by decide) (by decide)
    (by decide) (by decide)
  ⟨hmain.1, hmain.2.1⟩

/-- C7: a move rejected as InvalidMove (or, in the time-weighted variant, as
InvalidMove or InsufficientTime) leaves every modeled session and bottle
field unchanged — only the display message differs — and the run
continues. -/
theorem c7_failed_moves_preserve_state (m : RawMove) (s : GameState)
    (inp : SmartInput) (ts : TimedState) :
    ((processMove m s).2 = Outcome.InvalidMove → (processMove m s).1 = s) ∧
    ((processMoveTimed inp ts).2 = Outcome.InvalidMove ∨
        (processMoveTimed inp ts).2 = Outcome.InsufficientTime →
      (processMoveTimed inp ts).1 = ts) := by
  constructor
  · rcases hpd : parseDir m.dir with _ | d
    · intro _
      simp only [processMove, hpd]
    · rcases hpf : m.force with _ | f
      · intro _
        simp only [processMove, hpd, hpf]
      · intro h
        by_cases hfpos : f ≤ 0
        · simp only [processMove, hpd, hpf, if_pos hfpos]
        · rw [processMove_valid d f m s hpd hpf (by omega)] at h ⊢
          split_ifs at h ⊢
  · rcases hp : parseSmartInput inp ts.remainingTime with e | val
    · intro _
      simp only [processMoveTimed, hp]
    · obtain ⟨d, t, f⟩ := val
      intro h
      rw [processMoveTimed_valid d t f inp ts hp] at h ⊢
      split_ifs at h ⊢ <;> rcases h with h | h <;> simp_all

/-- Witness for C7: a malformed simple-variant command and a time-weighted
move requesting more than the remaining time, each leaving the state
untouched. -/
theorem c7_witness :
    (processMove ⟨"sideways", none⟩
        ⟨1, 100, false, ⟨Direction.CW, 30, 50, 0, false⟩⟩).1 =
      ⟨1, 100, false, ⟨Direction.CW, 30, 50, 0, false⟩⟩ ∧
    (processMoveTimed ⟨some Direction.CW, some 999, some 10⟩
        ⟨1, 100, 300, 0, false, ⟨Direction.CW, 30, 50, 0, false⟩⟩).1 =
      ⟨1, 100, 300, 0, false, ⟨Direction.CW, 30, 50, 0, false⟩⟩ :=
  have hmain := c7_failed_moves_preserve_state ⟨"sideways", none⟩
    ⟨1, 100, false, ⟨Direction.CW, 30, 50, 0, false⟩⟩
    ⟨some Direction.CW, some 999, some 10⟩
    ⟨1, 100, 300, 0, false, ⟨Direction.CW, 30, 50, 0, false⟩⟩
  ⟨hmain.1 (by decide), hmain.2 (Or.inr (by decide))⟩

/-- C5: the session energy always stays within [0, 100]: each resolved move
either leaves it unchanged or deducts a cost bounded by the current energy,
the +20 level replenishment and the passive +1 recovery are capped at 100,
in both variants. -/
theorem c5_energy_stays_in_bounds (m : RawMove) (s : GameState)
    (inp : SmartInput) (ts : TimedState) (tcur : Int)
    (h1 : 0 ≤ s.energy) (h2 : s.energy ≤ 100)
    (h3 : 0 ≤ ts.energy) (h4 : ts.energy ≤ 100) :
    (0 ≤ (processMove m s).1.energy ∧ (processMove m s).1.energy ≤ 100) ∧
    (0 ≤ replenishEnergy s.energy ∧ replenishEnergy s.energy ≤ 100) ∧
    (0 ≤ (updateEnergyRecovery tcur ts).energy ∧
      (updateEnergyRecovery tcur ts).energy ≤ 100) ∧
    (0 ≤ (processMoveTimed inp ts).1.energy ∧
      (processMoveTimed inp ts).1.energy ≤ 100) := by
  refine ⟨?_, ?_, ?_, ?_⟩
  · rcases hpd : parseDir m.dir with _ | d
    · simp only [processMove, hpd]
      omega
    · rcases hpf : m.force with _ | f
      · simp only [processMove, hpd, hpf]
        omega
      · by_cases hfpos : f ≤ 0
        · simp only [processMove, hpd, hpf, if_pos hfpos]
          omega
        · have hcost : 0 ≤ energyCostSimple f :=
            ceilF_nonneg (by omega) (by omega)
          rw [processMove_valid d f m s hpd hpf (by omega)]
          split_ifs <;> (try dsimp only) <;> omega
  · simp only [replenishEnergy]
    omega
  · simp only [updateEnergyRecovery]
    split_ifs <;> (try dsimp only) <;> omega
  · rcases hp : parseSmartInput inp ts.remainingTime with e | val
    · simp only [processMoveTimed, hp]
      omega
    · obtain ⟨d, t, f⟩ := val
      obtain ⟨-, hfpos, -⟩ := parseSmartInput_ok_bounds hp
      have hcost : 0 ≤ calculateEnergyLoss t f :=
        calculateEnergyLoss_nonneg hfpos
      rw [processMoveTimed_valid d t f inp ts hp]
      split_ifs <;> (try dsimp only) <;> omega

/-- Witness for C5 at a concrete full-energy state in each variant. -/
theorem c5_witness :
    (0 ≤ (processMove ⟨"acw", some 35⟩
        ⟨1, 100, false, ⟨Direction.CW, 30, 50, 0, false⟩⟩).1.energy ∧
      (processMove ⟨"acw", some 35⟩
        ⟨1, 100, false, ⟨Direction.CW, 30, 50, 0, false⟩⟩).1.energy ≤ 100) ∧
    (0 ≤ replenishEnergy 100 ∧ replenishEnergy 100 ≤ 100) ∧
    (0 ≤ (updateEnergyRecovery 5
        ⟨1, 100, 300, 2, false, ⟨Direction.CW, 30, 50, 0, false⟩⟩).energy ∧
      (updateEnergyRecovery 5
        ⟨1, 100, 300, 2, false, ⟨Direction.CW, 30, 50, 0, false⟩⟩).energy ≤ 100) ∧
    (0 ≤ (processMoveTimed ⟨some Direction.ACW, some 10, some 35⟩
        ⟨1, 100, 300, 2, false, ⟨Direction.CW, 30, 50, 0, false⟩⟩).1.energy ∧
      (processMoveTimed ⟨some Direction.ACW, some 10, some 35⟩
        ⟨1, 100, 300, 2, false, ⟨Direction.CW, 30, 50, 0, false⟩⟩).1.energy ≤ 100) :=
  c5_energy_stays_in_bounds ⟨"acw", some 35⟩
    ⟨1, 100, false, ⟨Direction.CW, 30, 50, 0, false⟩⟩
    ⟨some Direction.ACW, some 10, some 35⟩
    ⟨1, 100, 300, 2, false, ⟨Direction.CW, 30, 50, 0, false⟩⟩ 5
    (by decide) (by decide) (by decide) (by decide)

/-- C8 counterexample: the claimed exact-arithmetic formula disagrees with
the code at duration 7, force 41: the binary64 evaluation of
ceil(21 / max(0.5, 0.7)) yields 31 (21/0.7 rounds just above 30), while the
exact formula gives ceil(30) = 30. -/
theorem c8_counterexample :
    calculateEnergyLoss 7 41 = 31 ∧ energyLossSpec 7 41 = 30 := by decide

set_option maxRecDepth 40000
set_option maxHeartbeats 2000000

/-- C8 (amended): the energy cost is the claim's formula evaluated in
binary64 arithmetic; against the exact-arithmetic formula it agrees except
where rounding pushes the ceiling up by one: over durations 1..30 and forces
1..120 the cost is always the formula value or the formula value + 1, and
for durations up to 5 (where every intermediate double is exact) it equals
the formula. -/
theorem c8_cost_tracks_formula (t f : Int)
    (h1 : 1 ≤ t) (h2 : t ≤ 30) (h3 : 1 ≤ f) (h4 : f ≤ 120) :
    (calculateEnergyLoss t f = energyLossSpec t f ∨
      calculateEnergyLoss t f = energyLossSpec t f + 1) ∧
    (t ≤ 5 → calculateEnergyLoss t f = energyLossSpec t f) := by
  have key : ∀ a : Nat, a < 30 → ∀ b : Nat, b < 120 →
      ((calculateEnergyLoss ((a : Int) + 1) ((b : Int) + 1) =
          energyLossSpec ((a : Int) + 1) ((b : Int) + 1) ∨
        calculateEnergyLoss ((a : Int) + 1) ((b : Int) + 1) =
          energyLossSpec ((a : Int) + 1) ((b : Int) + 1) + 1) ∧
       ((a : Int) + 1 ≤ 5 →
        calculateEnergyLoss ((a : Int) + 1) ((b : Int) + 1) =
          energyLossSpec ((a : Int) + 1) ((b : Int) + 1))) := by decide
  have ha : ((t - 1).toNat : Int) + 1 = t := by omega
  have hb : ((f - 1).toNat : Int) + 1 = f := by omega
  have hmain := key (t - 1).toNat (by omega) (f - 1).toNat (by omega)
  rw [ha, hb] at hmain
  exact hmain

/-- Witness for C8 at duration 7, force 41 (the divergence point). -/
theorem c8_witness :
    (1 : Int) ≤ 7 ∧ (7 : Int) ≤ 30 ∧ (1 : Int) ≤ 41 ∧ (41 : Int) ≤ 120 ∧
    (calculateEnergyLoss 7 41 = energyLossSpec 7 41 ∨
      calculateEnergyLoss 7 41 = energyLossSpec 7 41 + 1) :=
  ⟨by decide, by decide, by decide, by decide,
   (c8_cost_tracks_formula 7 41 (by decide) (by decide) (by decide)
     (by decide)).1⟩

end Torque

